import Mathlib

/-!
The Closer of pkg/run/closer.go.

A shallow embedding of `Closer` (package `run`) and of the three library objects it is
built from:

* `sync.WaitGroup` : the task counter.  In the Go standard library the counter is the upper
  32 bits of one atomic 64-bit word and is read back as an `int32`; `Add(delta)` first adds
  `uint64(delta) << 32` to the word and only afterwards panics when the counter it reads
  back is negative; `Done()` is `Add(-1)`; `Wait()` returns when the counter it loads is
  zero and parks the caller otherwise.
* `atomic.Bool` : a boolean cell (`Store`, `Load`).
* `context.WithCancel(context.Background())` : a context whose `Done()` channel is closed by
  the first call of the cancel function and by nothing else.

The embedding is sequential: every method call is one step on the state of the Closer.  The
lower half of the WaitGroup word (the number of goroutines parked in `Wait`) is zero
whenever no goroutine is inside `Wait`; it is not part of the state here, and a `Wait` that
does not return is reported as `blocked`.
-/

namespace run

/-- Go conversion `int32(x)`: the low 32 bits of `x` read in two's complement. -/
def int32 (x : Int) : Int := (x + 2147483648) % 4294967296 - 2147483648

/-- The counter of a `sync.WaitGroup`, an `int32`. -/
structure WaitGroup where
  v : Int
  isInt32 : -2147483648 ≤ v ∧ v < 2147483648

/-- The zero value of `sync.WaitGroup`. -/
def WaitGroup.zero : WaitGroup := ⟨0, by omega⟩

/-- What a call of `WaitGroup.Add` leaves behind, and whether it panicked. -/
structure AddResult where
  wg : WaitGroup
  panicked : Bool

/-- The method `WaitGroup.Add(delta)`: the counter becomes `int32(v + delta)` (the addition is
done on the upper half of the 64-bit word), and the call panics with
"sync: negative WaitGroup counter" when the new counter is negative.  The addition is not
undone by the panic. -/
def WaitGroup.Add (wg : WaitGroup) (delta : Int) : AddResult :=
  { wg := ⟨int32 (wg.v + delta), by unfold int32; omega⟩
    panicked := decide (int32 (wg.v + delta) < 0) }

/-- The method `WaitGroup.Done()`, which is `wg.Add(-1)`. -/
def WaitGroup.Done (wg : WaitGroup) : AddResult := wg.Add (-1)

/-- The method `WaitGroup.Wait()`: `true` when the call returns (the counter is zero), `false`
when the caller is parked. -/
def WaitGroup.Wait (wg : WaitGroup) : Bool := decide (wg.v = 0)

/-- A channel `chan struct{}` nobody sends on: a receiver only observes whether it is
closed. -/
structure Chan where
  closed : Bool
  deriving DecidableEq

/-- A cancellable child of `context.Background()`. -/
structure Context where
  done : Chan
  deriving DecidableEq

/-- The context returned by `context.WithCancel(context.Background())`: not cancelled. -/
def Context.fresh : Context := ⟨⟨false⟩⟩

/-- The method `ctx.Done()`. -/
def Context.Done (ctx : Context) : Chan := ctx.done

/-- The cancel function of the context: the first call closes the `Done` channel, a later
call returns at once. -/
def Context.cancel (ctx : Context) : Context :=
  if ctx.done.closed then ctx else ⟨⟨true⟩⟩

/-- The struct `Closer`.  The field `cancel` of the source is the cancel function of `ctx`
and is `Context.cancel` here. -/
structure Closer where
  waiting : WaitGroup
  closed : Bool
  ctx : Context

/-- How a method call ends: it returns, it panics, or it parks its caller. -/
inductive Status where
  | returned
  | panicked
  | blocked
  deriving DecidableEq

/-- The state a method call leaves behind, and how the call ended. -/
structure Outcome where
  state : Closer
  status : Status

/-- The outstanding count of a Closer: the counter of its WaitGroup. -/
def Closer.count (c : Closer) : Int := c.waiting.v

/-- The function `NewCloser(initial)`.  When `c.waiting.Add(initial)` panics no Closer is
returned. -/
def NewCloser (initial : Int) : Option Closer :=
  let c : Closer := { waiting := WaitGroup.zero, closed := false, ctx := Context.fresh }
  let r := c.waiting.Add initial
  if r.panicked then none else some { c with waiting := r.wg }

/-- The method `AddRunning`: `c.waiting.Add(1)`. -/
def Closer.AddRunning (c : Closer) : Outcome :=
  let r := c.waiting.Add 1
  { state := { c with waiting := r.wg }
    status := if r.panicked then Status.panicked else Status.returned }

/-- The method `Close`: `c.closed.Store(true)`, then `c.cancel()`. -/
def Closer.Close (c : Closer) : Closer :=
  let c1 : Closer := { c with closed := true }
  { c1 with ctx := c1.ctx.cancel }

/-- The method `CloseNotify`: the channel `c.ctx.Done()`. -/
def Closer.CloseNotify (c : Closer) : Chan := c.ctx.Done

/-- The method `Done`: `c.waiting.Done()`. -/
def Closer.Done (c : Closer) : Outcome :=
  let r := c.waiting.Done
  { state := { c with waiting := r.wg }
    status := if r.panicked then Status.panicked else Status.returned }

/-- The method `Wait`: `c.waiting.Wait()`. -/
def Closer.Wait (c : Closer) : Outcome :=
  { state := c
    status := if c.waiting.Wait then Status.returned else Status.blocked }

/-- The method `CloseThenWait`: `c.Close()`, then `c.Wait()`. -/
def Closer.CloseThenWait (c : Closer) : Outcome :=
  let c1 := c.Close
  c1.Wait

/-- The method `Closed`: `c.closed.Load()`. -/
def Closer.Closed (c : Closer) : Bool := c.closed

/-- The methods of a Closer, as the letters of a history. -/
inductive Op where
  | AddRunning
  | Close
  | CloseNotify
  | Done
  | Wait
  | CloseThenWait
  | Closed
  deriving DecidableEq

/-- One method call on the state `c`. -/
def step (c : Closer) : Op → Outcome
  | Op.AddRunning => c.AddRunning
  | Op.Close => { state := c.Close, status := Status.returned }
  | Op.CloseNotify => { state := c, status := Status.returned }
  | Op.Done => c.Done
  | Op.Wait => c.Wait
  | Op.CloseThenWait => c.CloseThenWait
  | Op.Closed => { state := c, status := Status.returned }

/-- The state after a history of calls.  A call that panics or parks its caller leaves its
state behind and the following calls (of other goroutines, or after `recover`) go on from
there. -/
def exec (c : Closer) : List Op → Closer
  | [] => c
  | op :: ops => exec (step c op).state ops

/-- No call of the history panics. -/
def noPanic (c : Closer) : List Op → Bool
  | [] => true
  | op :: ops => decide ((step c op).status ≠ Status.panicked) && noPanic (step c op).state ops

/-- No `Done` of the history is called at outstanding count zero. -/
def noDoneAtZero (c : Closer) : List Op → Bool
  | [] => true
  | op :: ops =>
    !(decide (op = Op.Done) && decide (c.count = 0)) && noDoneAtZero (step c op).state ops

/-- The number of `AddRunning` calls of a history. -/
def adds (ops : List Op) : Nat := ops.count Op.AddRunning

/-- The number of `Done` calls of a history. -/
def dones (ops : List Op) : Nat := ops.count Op.Done

/-- CloseThenWait in the words of the specification: close (closed flag set, signal fired,
count untouched), then wait, which returns exactly at outstanding count zero. -/
def specCloseThenWait (c : Closer) : Outcome :=
  { state := { waiting := c.waiting, closed := true, ctx := ⟨⟨true⟩⟩ }
    status := if c.count = 0 then Status.returned else Status.blocked }

/-! ## Auxiliary facts -/

theorem int32_eq_self (x : Int) (h : -2147483648 ≤ x ∧ x < 2147483648) : int32 x = x := by
  unfold int32; omega

theorem count_inRange (c : Closer) : -2147483648 ≤ c.count ∧ c.count < 2147483648 :=
  c.waiting.isInt32

theorem AddRunning_count (c : Closer) : c.AddRunning.state.count = int32 (c.count + 1) := rfl

theorem Done_count (c : Closer) : c.Done.state.count = int32 (c.count - 1) := rfl

theorem AddRunning_status (c : Closer) :
    c.AddRunning.status = if int32 (c.count + 1) < 0 then Status.panicked else Status.returned := by
  simp [Closer.AddRunning, WaitGroup.Add, Closer.count]

theorem Done_status (c : Closer) :
    c.Done.status = if int32 (c.count - 1) < 0 then Status.panicked else Status.returned := by
  simp [Closer.Done, WaitGroup.Done, WaitGroup.Add, Closer.count]
  rfl

theorem Wait_status (c : Closer) :
    c.Wait.status = if c.count = 0 then Status.returned else Status.blocked := by
  simp [Closer.Wait, WaitGroup.Wait, Closer.count]

theorem cancel_closed (ctx : Context) : ctx.cancel.done.closed = true := by
  unfold Context.cancel
  split <;> simp_all

theorem cancel_eq (ctx : Context) : ctx.cancel = ⟨⟨true⟩⟩ := by
  have h := cancel_closed ctx
  rcases hc : ctx.cancel with ⟨⟨b⟩⟩
  simp_all

theorem cancel_cancel (ctx : Context) : ctx.cancel.cancel = ctx.cancel := by
  rw [cancel_eq ctx.cancel, cancel_eq ctx]

theorem step_count (c : Closer) (op : Op) :
    (step c op).state.count =
      if op = Op.AddRunning then int32 (c.count + 1)
      else if op = Op.Done then int32 (c.count - 1) else c.count := by
  cases op <;> rfl

theorem step_closed (c : Closer) (op : Op) :
    (step c op).state.closed =
      (c.closed || decide (op = Op.Close) || decide (op = Op.CloseThenWait)) := by
  cases op <;> simp [step, Closer.AddRunning, Closer.Done, Closer.Wait, Closer.CloseThenWait,
    Closer.Close]

theorem step_fired (c : Closer) (op : Op) :
    (step c op).state.ctx.done.closed =
      (c.ctx.done.closed || decide (op = Op.Close) || decide (op = Op.CloseThenWait)) := by
  cases op <;> simp [step, Closer.AddRunning, Closer.Done, Closer.Wait, Closer.CloseThenWait,
    Closer.Close, cancel_closed]

theorem NewCloser_fresh (n : Int) (c : Closer) (h : NewCloser n = some c) :
    c.count = int32 n ∧ 0 ≤ c.count ∧ c.closed = false ∧ c.ctx.done.closed = false := by
  unfold NewCloser at h
  simp only [WaitGroup.Add, WaitGroup.zero] at h
  split at h
  · cases h
  · rename_i hp
    cases h
    refine ⟨?_, ?_, rfl, rfl⟩
    · simp [Closer.count]
    · simpa [Closer.count] using hp

theorem NewCloser_eq (n : Int) (h : 0 ≤ n ∧ n ≤ 2147483647) :
    ∃ c, NewCloser n = some c ∧ c.count = n ∧ c.closed = false ∧ c.ctx.done.closed = false := by
  have h32 : int32 n = n := int32_eq_self _ (by omega)
  cases hc : NewCloser n with
  | none =>
    exfalso
    unfold NewCloser at hc
    simp only [WaitGroup.Add, WaitGroup.zero, zero_add, h32] at hc
    split at hc
    · rename_i hp
      simp at hp
      omega
    · cases hc
  | some c =>
    have hf := NewCloser_fresh n c hc
    exact ⟨c, rfl, by rw [hf.1, h32], hf.2.2.1, hf.2.2.2⟩

theorem exec_append (c : Closer) (xs ys : List Op) :
    exec c (xs ++ ys) = exec (exec c xs) ys := by
  induction xs generalizing c with
  | nil => rfl
  | cons op xs ih => simpa [exec] using ih _

theorem exec_count (ops : List Op) :
    ∀ c : Closer, 0 ≤ c.count → noDoneAtZero c ops = true → noPanic c ops = true →
      (exec c ops).count = c.count + adds ops - dones ops ∧ 0 ≤ (exec c ops).count := by
  induction ops with
  | nil => intro c h0 _ _; simp [exec, adds, dones, h0]
  | cons op ops ih =>
    intro c h0 hz hp
    simp only [noDoneAtZero, Bool.and_eq_true, Bool.not_eq_true', Bool.and_eq_false_imp,
      decide_eq_true_eq, decide_eq_false_iff_not] at hz
    obtain ⟨hz1, hz2⟩ := hz
    simp only [noPanic, Bool.and_eq_true, decide_eq_true_eq] at hp
    obtain ⟨hp1, hp2⟩ := hp
    have hc := step_count c op
    have hr := count_inRange c
    by_cases ha : op = Op.AddRunning
    · subst ha
      have hadd : adds (Op.AddRunning :: ops) = adds ops + 1 := by simp [adds]
      have hdone : dones (Op.AddRunning :: ops) = dones ops := by simp [dones]
      have hs := AddRunning_status c
      have hnn : ¬ int32 (c.count + 1) < 0 := by
        intro hneg
        rw [if_pos hneg] at hs
        exact hp1 hs
      have h32 : int32 (c.count + 1) = c.count + 1 := by
        unfold int32 at hnn ⊢
        omega
      rw [if_pos rfl, h32] at hc
      have := ih (step c Op.AddRunning).state (by omega) hz2 hp2
      rw [hadd, hdone]
      simp only [exec]
      push_cast
      omega
    · by_cases hd : op = Op.Done
      · subst hd
        have hadd : adds (Op.Done :: ops) = adds ops := by simp [adds]
        have hdone : dones (Op.Done :: ops) = dones ops + 1 := by simp [dones]
        have hne : c.count ≠ 0 := hz1 rfl
        rw [if_neg (by decide), if_pos rfl, int32_eq_self _ (by omega)] at hc
        have := ih (step c Op.Done).state (by omega) hz2 hp2
        rw [hadd, hdone]
        simp only [exec]
        push_cast
        omega
      · have hadd : adds (op :: ops) = adds ops := by
          simp [adds, List.count_cons, ha]
        have hdone : dones (op :: ops) = dones ops := by
          simp [dones, List.count_cons, hd]
        rw [if_neg ha, if_neg hd] at hc
        have := ih (step c op).state (by omega) hz2 hp2
        rw [hadd, hdone]
        simp only [exec]
        omega

theorem exec_count_nonneg (ops : List Op) :
    ∀ c : Closer, 0 ≤ c.count → noPanic c ops = true → 0 ≤ (exec c ops).count := by
  induction ops with
  | nil => intro c h0 _; simpa [exec] using h0
  | cons op ops ih =>
    intro c h0 hp
    simp only [noPanic, Bool.and_eq_true, decide_eq_true_eq] at hp
    obtain ⟨hp1, hp2⟩ := hp
    refine ih _ ?_ hp2
    cases op
    · have hs := AddRunning_status c
      have hc := AddRunning_count c
      simp only [step] at hp1 ⊢
      by_cases hneg : int32 (c.count + 1) < 0
      · rw [if_pos hneg] at hs; exact absurd hs hp1
      · omega
    · simpa [step, Closer.Close, Closer.count] using h0
    · simpa [step] using h0
    · have hs := Done_status c
      have hc := Done_count c
      simp only [step] at hp1 ⊢
      by_cases hneg : int32 (c.count - 1) < 0
      · rw [if_pos hneg] at hs; exact absurd hs hp1
      · omega
    · simpa [step, Closer.Wait] using h0
    · simpa [step, Closer.CloseThenWait, Closer.Wait, Closer.Close, Closer.count] using h0
    · simpa [step] using h0

theorem exec_closed_mono (ops : List Op) :
    ∀ c : Closer, c.closed = true → (exec c ops).closed = true := by
  induction ops with
  | nil => intro c h; simpa [exec] using h
  | cons op ops ih =>
    intro c h
    exact ih _ (by rw [step_closed, h]; rfl)

theorem exec_closed_false (ops : List Op) :
    ∀ c : Closer, c.closed = false → (∀ op ∈ ops, op ≠ Op.Close ∧ op ≠ Op.CloseThenWait) →
      (exec c ops).closed = false := by
  induction ops with
  | nil => intro c h _; simpa [exec] using h
  | cons op ops ih =>
    intro c h hno
    have h1 := hno op (List.mem_cons_self _ _)
    refine ih _ ?_ (fun o ho => hno o (List.mem_cons_of_mem _ ho))
    rw [step_closed, h]
    simp [h1.1, h1.2]

theorem exec_agree (ops : List Op) :
    ∀ c : Closer, c.closed = c.ctx.done.closed →
      (exec c ops).closed = (exec c ops).ctx.done.closed := by
  induction ops with
  | nil => intro c h; simpa [exec] using h
  | cons op ops ih =>
    intro c h
    exact ih _ (by rw [step_closed, step_fired, h])

/-! ## The outstanding count along a history -/

/-- Claim C1, as stated, fails: the counter of the WaitGroup is an int32.  `NewCloser(4294967296)`
returns a Closer whose outstanding count is 0, not 4294967296, and `Wait` returns on it
although `Done` was never called; `NewCloser(2147483647)` followed by one `AddRunning`
leaves the count at -2147483648 (and that `AddRunning` panics), not at 2147483648. -/
theorem count_formula_fails_beyond_int32 :
    (∃ c, NewCloser 4294967296 = some c ∧ noDoneAtZero c [] = true ∧
      (exec c []).count = 0 ∧
      (exec c []).count ≠ 4294967296 + (adds [] : Int) - (dones [] : Int) ∧
      (exec c []).Wait.status = Status.returned) ∧
    (∃ c, NewCloser 2147483647 = some c ∧ noDoneAtZero c [Op.AddRunning] = true ∧
      (exec c [Op.AddRunning]).count = -2147483648 ∧
      (exec c [Op.AddRunning]).count ≠
        2147483647 + (adds [Op.AddRunning] : Int) - (dones [Op.AddRunning] : Int) ∧
      c.AddRunning.status = Status.panicked) := by
  refine ⟨⟨⟨⟨0, by omega⟩, false, ⟨⟨false⟩⟩⟩, rfl, rfl, rfl, by decide, rfl⟩,
    ⟨⟨⟨2147483647, by omega⟩, false, ⟨⟨false⟩⟩⟩, rfl, rfl, rfl, by decide, rfl⟩⟩

/-- Claim C1, amended: for every initial count n with 0 ≤ n ≤ 2147483647, `NewCloser(n)`
returns a Closer, and after every history of calls on it in which no `Done` is called at
count zero and no call panics (no `AddRunning` is called at count 2147483647, where the
int32 counter would overflow) the outstanding count is
n + (number of AddRunning calls) - (number of Done calls); `Wait` returns in that state if
and only if this number is zero, that is if and only if `Done` has been called
n + (number of AddRunning calls) times; and when the count is zero, one more `AddRunning`
makes `Wait` block, and one `Done` after it makes `Wait` return again. -/
theorem count_after_history (n : Int) (ops : List Op) (hn : 0 ≤ n)
    (hmax : n ≤ 2147483647) :
    (∃ c, NewCloser n = some c) ∧
    ∀ c, NewCloser n = some c → noDoneAtZero c ops = true → noPanic c ops = true →
      (exec c ops).count = n + adds ops - dones ops ∧
      ((exec c ops).Wait.status = Status.returned ↔ n + adds ops - dones ops = 0) ∧
      ((exec c ops).Wait.status = Status.returned ↔ (dones ops : Int) = n + adds ops) ∧
      ((exec c ops).count = 0 →
        (exec c (ops ++ [Op.AddRunning])).Wait.status = Status.blocked ∧
        (exec c (ops ++ [Op.AddRunning, Op.Done])).Wait.status = Status.returned) := by
  obtain ⟨c0, hc0, _⟩ := NewCloser_eq n ⟨hn, hmax⟩
  refine ⟨⟨c0, hc0⟩, ?_⟩
  intro c hc hz hp
  have hf := NewCloser_fresh n c hc
  have hcn : c.count = n := by rw [hf.1]; exact int32_eq_self _ (by omega)
  have h := exec_count ops c hf.2.1 hz hp
  rw [hcn] at h
  refine ⟨h.1, ?_, ?_, ?_⟩
  · rw [Wait_status, h.1]
    split
    · rename_i hx
      exact ⟨fun _ => hx, fun _ => rfl⟩
    · rename_i hx
      exact ⟨fun hy => (by cases hy), fun hy => absurd hy hx⟩
  · rw [Wait_status, h.1]
    split
    · constructor
      · intro _; omega
      · intro _; rfl
    · constructor
      · intro hx; cases hx
      · intro hx; omega
  · intro hzero
    have h1 : (exec c ops).AddRunning.state.count = 1 := by
      rw [AddRunning_count, hzero]; rfl
    have h2 : (exec c ops).AddRunning.state.Done.state.count = 0 := by
      rw [Done_count, h1]; rfl
    constructor
    · rw [exec_append]
      simp only [exec, step]
      rw [Wait_status, h1]
      rfl
    · rw [exec_append]
      simp only [exec, step]
      rw [Wait_status, h2]
      rfl

/-- Witness of C1 (amended): `NewCloser(2147483647)`, then Done, AddRunning, Close, Done,
Closed, CloseNotify: the count ends at 2147483646. -/
theorem count_after_history_witness :
    (0 : Int) ≤ 2147483647 ∧
    (2147483647 : Int) ≤ 2147483647 ∧
    NewCloser 2147483647 = some ⟨⟨2147483647, by omega⟩, false, ⟨⟨false⟩⟩⟩ ∧
    noDoneAtZero ⟨⟨2147483647, by omega⟩, false, ⟨⟨false⟩⟩⟩
      [Op.Done, Op.AddRunning, Op.Close, Op.Done, Op.Closed, Op.CloseNotify] = true ∧
    noPanic ⟨⟨2147483647, by omega⟩, false, ⟨⟨false⟩⟩⟩
      [Op.Done, Op.AddRunning, Op.Close, Op.Done, Op.Closed, Op.CloseNotify] = true ∧
    (exec ⟨⟨2147483647, by omega⟩, false, ⟨⟨false⟩⟩⟩
      [Op.Done, Op.AddRunning, Op.Close, Op.Done, Op.Closed, Op.CloseNotify]).count
      = 2147483647
          + adds [Op.Done, Op.AddRunning, Op.Close, Op.Done, Op.Closed, Op.CloseNotify]
          - dones [Op.Done, Op.AddRunning, Op.Close, Op.Done, Op.Closed, Op.CloseNotify] :=
  ⟨by decide, by decide, rfl, rfl, rfl,
    ((count_after_history 2147483647
      [Op.Done, Op.AddRunning, Op.Close, Op.Done, Op.Closed, Op.CloseNotify]
      (by decide) (by decide)).2 _ rfl rfl rfl).1⟩

/-! ## Done at outstanding count zero -/

/-- Claim C2, as stated, fails: after `NewCloser(0)` and one (failing) `Done` the outstanding
count is -1, and `Done` called in that state panics although the count is not zero. -/
theorem Done_panics_at_negative_count :
    ∃ c, NewCloser 0 = some c ∧ (exec c [Op.Done]).count = -1 ∧
      (exec c [Op.Done]).Done.status = Status.panicked ∧
      ¬ ((exec c [Op.Done]).Done.status = Status.panicked ↔ (exec c [Op.Done]).count = 0) :=
  ⟨⟨⟨0, by omega⟩, false, ⟨⟨false⟩⟩⟩, rfl, rfl, rfl,
    fun h => absurd (h.1 rfl) (by decide)⟩

/-- Claim C2, amended: in every state `Done` panics if and only if the outstanding count is
zero or negative when it is called (and is not -2147483648, where the decrement wraps
around); a negative count exists only after an earlier failed `Done`, and in every state
with a non-negative count `Done` panics if and only if the count is zero.  In every state
with outstanding count k > 0 `Done` returns and leaves the count at k - 1.  `Done` on
`NewCloser(0)` panics. -/
theorem Done_panics_iff_count_nonpos (c : Closer) :
    (c.Done.status = Status.panicked ↔ c.count ≤ 0 ∧ c.count ≠ -2147483648) ∧
    (0 ≤ c.count → (c.Done.status = Status.panicked ↔ c.count = 0)) ∧
    (0 < c.count → c.Done.status = Status.returned ∧ c.Done.state.count = c.count - 1) ∧
    (∃ c0, NewCloser 0 = some c0 ∧ c0.Done.status = Status.panicked) := by
  have hr := count_inRange c
  have hiff : c.Done.status = Status.panicked ↔ c.count ≤ 0 ∧ c.count ≠ -2147483648 := by
    rw [Done_status]
    by_cases hneg : int32 (c.count - 1) < 0
    · rw [if_pos hneg]
      refine ⟨fun _ => ?_, fun _ => rfl⟩
      unfold int32 at hneg
      omega
    · rw [if_neg hneg]
      refine ⟨fun hx => (by cases hx), fun hx => ?_⟩
      exfalso
      apply hneg
      unfold int32
      omega
  refine ⟨hiff, ?_, ?_, ⟨⟨⟨0, by omega⟩, false, ⟨⟨false⟩⟩⟩, rfl, rfl⟩⟩
  · intro h0
    rw [hiff]
    constructor
    · intro hx; omega
    · intro hx; omega
  · intro hpos
    have h32 : int32 (c.count - 1) = c.count - 1 := int32_eq_self _ (by omega)
    rw [Done_status, Done_count, h32, if_neg (by omega)]
    exact ⟨rfl, rfl⟩

/-- Witness of C2 (amended): the state reached by `NewCloser(2)`, where `Done` returns and
leaves the count at 1. -/
theorem Done_panics_iff_count_nonpos_witness :
    NewCloser 2 = some (Closer.mk ⟨2, by omega⟩ false ⟨⟨false⟩⟩) ∧
    (0 : Int) < (Closer.mk ⟨2, by omega⟩ false ⟨⟨false⟩⟩).count ∧
    (Closer.mk ⟨2, by omega⟩ false ⟨⟨false⟩⟩).Done.status = Status.returned ∧
    (Closer.mk ⟨2, by omega⟩ false ⟨⟨false⟩⟩).Done.state.count = 2 - 1 :=
  ⟨rfl, by decide,
    (Done_panics_iff_count_nonpos (Closer.mk ⟨2, by omega⟩ false ⟨⟨false⟩⟩)).2.2.1
      (by decide)⟩

/-- Claim C3, as stated, fails: `Done` on `NewCloser(0)` panics and leaves the outstanding count at
-1, not at 0; an `AddRunning` after the failed `Done` brings the count to 0 and `Wait`
returns, whereas without the failed `Done` the count is 1 and `Wait` blocks. -/
theorem failed_Done_changes_count :
    ∃ c, NewCloser 0 = some c ∧ c.count = 0 ∧ c.Done.status = Status.panicked ∧
      c.Done.state.count = -1 ∧ c.Done.state.count ≠ c.count ∧
      (exec c [Op.Done, Op.AddRunning]).Wait.status = Status.returned ∧
      (exec c [Op.AddRunning]).Wait.status = Status.blocked :=
  ⟨⟨⟨0, by omega⟩, false, ⟨⟨false⟩⟩⟩, rfl, rfl, rfl, rfl, by decide, rfl, rfl⟩

/-- Claim C3, amended: when `Done` is called with outstanding count zero it panics, and the closed
flag and the cancellation signal are the same after the failed call as before it; the
outstanding count is not: the decrement is applied before the check and stays, the count
is -1 after the call, and one `AddRunning` later it is 0 (so `Wait` returns). -/
theorem failed_Done_frame (c : Closer) (h : c.count = 0) :
    c.Done.status = Status.panicked ∧
    c.Done.state.Closed = c.Closed ∧
    c.Done.state.CloseNotify = c.CloseNotify ∧
    c.Done.state.count = -1 ∧
    c.Done.state.AddRunning.state.count = 0 ∧
    c.Done.state.AddRunning.state.Wait.status = Status.returned := by
  have h1 : c.Done.state.count = -1 := by rw [Done_count, h]; rfl
  have h2 : c.Done.state.AddRunning.state.count = 0 := by rw [AddRunning_count, h1]; rfl
  refine ⟨?_, rfl, rfl, h1, h2, ?_⟩
  · rw [Done_status, h]; rfl
  · rw [Wait_status, h2]; rfl

/-- Witness of C3 (amended): the state reached by `NewCloser(0)`. -/
theorem failed_Done_frame_witness :
    NewCloser 0 = some (Closer.mk ⟨0, by omega⟩ false ⟨⟨false⟩⟩) ∧
    (Closer.mk ⟨0, by omega⟩ false ⟨⟨false⟩⟩).count = 0 ∧
    (Closer.mk ⟨0, by omega⟩ false ⟨⟨false⟩⟩).Done.status = Status.panicked ∧
    (Closer.mk ⟨0, by omega⟩ false ⟨⟨false⟩⟩).Done.state.count = -1 :=
  ⟨rfl, rfl, (failed_Done_frame (Closer.mk ⟨0, by omega⟩ false ⟨⟨false⟩⟩) rfl).1,
    (failed_Done_frame (Closer.mk ⟨0, by omega⟩ false ⟨⟨false⟩⟩) rfl).2.2.2.1⟩

/-! ## Close -/

/-- Claim C4: `Close` is idempotent.  In every state, `Close` applied twice, and applied N + 1
times for any N, leaves the state that one `Close` leaves; in that state the closed flag is
true and the channel of `CloseNotify` is closed; `Closed`, `CloseNotify` and `Wait` give the
same after the second `Close` as after the first. -/
theorem Close_idempotent (s : Closer) :
    s.Close.Close = s.Close ∧
    (∀ N : Nat, Closer.Close^[N + 1] s = s.Close) ∧
    s.Close.Closed = true ∧
    s.Close.CloseNotify.closed = true ∧
    s.Close.Close.Closed = s.Close.Closed ∧
    s.Close.Close.CloseNotify = s.Close.CloseNotify ∧
    s.Close.Close.Wait.status = s.Close.Wait.status := by
  have h2 : ∀ t : Closer, t.Close.Close = t.Close := by
    intro t
    simp only [Closer.Close, cancel_cancel]
  refine ⟨h2 s, ?_, rfl, cancel_closed _, by rw [h2], by rw [h2], by rw [h2]⟩
  intro N
  induction N with
  | zero => rfl
  | succ k ih =>
    rw [Function.iterate_succ_apply', ih, h2]

/-- Claim C5: `Closed` is false on the Closer `NewCloser` returns and after every history without
`Close` (and without `CloseThenWait`, which calls `Close`); after a `Close`, or a
`CloseThenWait`, it is true after every further history; and from any state in which it is
true no history makes it false again. -/
theorem Closed_false_until_Close (n : Int) (c : Closer) (pre post : List Op)
    (hnew : NewCloser n = some c)
    (hpre : ∀ op ∈ pre, op ≠ Op.Close ∧ op ≠ Op.CloseThenWait) :
    c.Closed = false ∧
    (exec c pre).Closed = false ∧
    (exec c (pre ++ Op.Close :: post)).Closed = true ∧
    (exec c (pre ++ Op.CloseThenWait :: post)).Closed = true ∧
    (∀ (s : Closer) (ops : List Op), (exec s.Close ops).Closed = true) ∧
    (∀ (s : Closer) (ops : List Op), s.Closed = true → (exec s ops).Closed = true) := by
  have hf := NewCloser_fresh n c hnew
  refine ⟨hf.2.2.1, exec_closed_false pre c hf.2.2.1 hpre, ?_, ?_, ?_, ?_⟩
  · rw [exec_append]
    exact exec_closed_mono post _ (by rw [step_closed]; simp)
  · rw [exec_append]
    exact exec_closed_mono post _ (by rw [step_closed]; simp)
  · intro s ops
    exact exec_closed_mono ops _ rfl
  · intro s ops hs
    exact exec_closed_mono ops s hs

/-- Witness of C5: `NewCloser(1)`, then AddRunning, Done, Wait, Closed, CloseNotify, then
`Close`, then Done, Wait. -/
theorem Closed_false_until_Close_witness :
    NewCloser 1 = some (Closer.mk ⟨1, by omega⟩ false ⟨⟨false⟩⟩) ∧
    (exec (Closer.mk ⟨1, by omega⟩ false ⟨⟨false⟩⟩)
      [Op.AddRunning, Op.Done, Op.Wait, Op.Closed, Op.CloseNotify]).Closed = false ∧
    (exec (Closer.mk ⟨1, by omega⟩ false ⟨⟨false⟩⟩)
      ([Op.AddRunning, Op.Done, Op.Wait, Op.Closed, Op.CloseNotify] ++
        Op.Close :: [Op.Done, Op.Wait])).Closed = true :=
  ⟨rfl,
    (Closed_false_until_Close 1 (Closer.mk ⟨1, by omega⟩ false ⟨⟨false⟩⟩)
      [Op.AddRunning, Op.Done, Op.Wait, Op.Closed, Op.CloseNotify] [Op.Done, Op.Wait]
      rfl (by decide)).2.1,
    (Closed_false_until_Close 1 (Closer.mk ⟨1, by omega⟩ false ⟨⟨false⟩⟩)
      [Op.AddRunning, Op.Done, Op.Wait, Op.Closed, Op.CloseNotify] [Op.Done, Op.Wait]
      rfl (by decide)).2.2.1⟩

/-! ## The count and the closed flag -/

/-- Claim C6: the outstanding count and the closed flag are independent.  In every state `Close`
leaves the outstanding count as it is, and `AddRunning`, `Done` and `Wait` leave the closed
flag and the cancellation signal as they are; `NewCloser(0)` is a state with count zero and
closed false; `NewCloser(1)` followed by `Close` is a state with the signal fired, closed
true and count 1, in which `Wait` blocks, and after one `Done` `Wait` returns. -/
theorem count_closed_independent (s : Closer) :
    s.Close.count = s.count ∧
    (s.AddRunning.state.Closed = s.Closed ∧ s.AddRunning.state.CloseNotify = s.CloseNotify) ∧
    (s.Done.state.Closed = s.Closed ∧ s.Done.state.CloseNotify = s.CloseNotify) ∧
    (s.Wait.state.Closed = s.Closed ∧ s.Wait.state.CloseNotify = s.CloseNotify) ∧
    (∃ c, NewCloser 0 = some c ∧ c.count = 0 ∧ c.Closed = false ∧
      c.Wait.status = Status.returned ∧ c.Wait.state.Closed = false) ∧
    (∃ c, NewCloser 1 = some c ∧ c.Close.count = 1 ∧ c.Close.Closed = true ∧
      c.Close.CloseNotify.closed = true ∧ c.Close.Wait.status = Status.blocked ∧
      c.Close.Done.status = Status.returned ∧ c.Close.Done.state.count = 0 ∧
      c.Close.Done.state.Wait.status = Status.returned ∧
      c.Close.Done.state.Closed = true) :=
  ⟨rfl, ⟨rfl, rfl⟩, ⟨rfl, rfl⟩, ⟨rfl, rfl⟩,
    ⟨⟨⟨0, by omega⟩, false, ⟨⟨false⟩⟩⟩, rfl, rfl, rfl, rfl, rfl⟩,
    ⟨⟨⟨1, by omega⟩, false, ⟨⟨false⟩⟩⟩, rfl, rfl, rfl, rfl, rfl, rfl, rfl, rfl, rfl⟩⟩

/-- Claim C7, as stated, fails: `NewCloser(0)` followed by one `Done`, which panics, is a history
that contains a `Done` reported as an error, and the outstanding count after it is -1. -/
theorem count_negative_after_failed_Done :
    ∃ c, NewCloser 0 = some c ∧ (step c Op.Done).status = Status.panicked ∧
      (exec c [Op.Done]).count = -1 ∧ ¬ 0 ≤ (exec c [Op.Done]).count :=
  ⟨⟨⟨0, by omega⟩, false, ⟨⟨false⟩⟩⟩, rfl, rfl, rfl, by decide⟩

/-- Claim C7, amended: for every initial count and every history of calls on the Closer that
`NewCloser` returns, if no call of the history is reported as an error (none panics) then
the outstanding count of the resulting state is at least zero. -/
theorem count_nonneg_of_noPanic (n : Int) (c : Closer) (ops : List Op)
    (hnew : NewCloser n = some c) (hp : noPanic c ops = true) :
    0 ≤ (exec c ops).count :=
  exec_count_nonneg ops c (NewCloser_fresh n c hnew).2.1 hp

/-- Witness of C7 (amended): `NewCloser(1)`, then Done, AddRunning, Close, Wait,
CloseThenWait, Done. -/
theorem count_nonneg_of_noPanic_witness :
    NewCloser 1 = some (Closer.mk ⟨1, by omega⟩ false ⟨⟨false⟩⟩) ∧
    noPanic (Closer.mk ⟨1, by omega⟩ false ⟨⟨false⟩⟩)
      [Op.Done, Op.AddRunning, Op.Close, Op.Wait, Op.CloseThenWait, Op.Done] = true ∧
    0 ≤ (exec (Closer.mk ⟨1, by omega⟩ false ⟨⟨false⟩⟩)
      [Op.Done, Op.AddRunning, Op.Close, Op.Wait, Op.CloseThenWait, Op.Done]).count :=
  ⟨rfl, rfl,
    count_nonneg_of_noPanic 1 (Closer.mk ⟨1, by omega⟩ false ⟨⟨false⟩⟩)
      [Op.Done, Op.AddRunning, Op.Close, Op.Wait, Op.CloseThenWait, Op.Done] rfl rfl⟩

/-! ## CloseThenWait -/

/-- Claim C8: `CloseThenWait` is `Close` followed by `Wait`.  In every state it does what the
specification says of the composition: it leaves the state `Close` leaves (closed true,
signal fired, count as before), it ends as `Wait` ends after `Close`, and it returns if and
only if the outstanding count is zero; on `NewCloser(0)` it returns, with closed true. -/
theorem CloseThenWait_eq_Close_then_Wait (s : Closer) :
    s.CloseThenWait = specCloseThenWait s ∧
    s.CloseThenWait.state = s.Close ∧
    s.CloseThenWait.status = s.Close.Wait.status ∧
    (s.CloseThenWait.status = Status.returned ↔ s.count = 0) ∧
    (s.CloseThenWait.status = Status.blocked ↔ s.count ≠ 0) ∧
    s.CloseThenWait.state.Closed = true ∧
    s.CloseThenWait.state.CloseNotify.closed = true ∧
    s.CloseThenWait.state.count = s.count ∧
    (∃ c, NewCloser 0 = some c ∧ c.CloseThenWait.status = Status.returned ∧
      c.CloseThenWait.state.Closed = true) := by
  have hst : s.CloseThenWait.status
      = if s.count = 0 then Status.returned else Status.blocked := by
    show s.Close.Wait.status = _
    rw [Wait_status]
    rfl
  refine ⟨?_, rfl, rfl, ?_, ?_, rfl, cancel_closed _, rfl,
    ⟨⟨⟨0, by omega⟩, false, ⟨⟨false⟩⟩⟩, rfl, rfl, rfl⟩⟩
  · have hstate : s.CloseThenWait.state = (specCloseThenWait s).state := by
      show s.Close = _
      simp only [Closer.Close, specCloseThenWait, cancel_eq]
    have hstatus : s.CloseThenWait.status = (specCloseThenWait s).status := hst
    cases hx : s.CloseThenWait
    cases hy : specCloseThenWait s
    rw [hx] at hstate hstatus
    rw [hy] at hstate hstatus
    simp only at hstate hstatus
    rw [hstate, hstatus]
  · rw [hst]
    split
    · rename_i hz
      exact ⟨fun _ => hz, fun _ => rfl⟩
    · rename_i hz
      exact ⟨fun hy => (by cases hy), fun hy => absurd hy hz⟩
  · rw [hst]
    split
    · rename_i hz
      exact ⟨fun hy => (by cases hy), fun hy => absurd hz hy⟩
    · rename_i hz
      exact ⟨fun _ => hz, fun _ => rfl⟩

/-! ## The closed flag and the cancellation signal -/

/-- Claim C10: in every state reached from the Closer `NewCloser` returns by whole calls, `Closed`
is true if and only if the channel of `CloseNotify` is closed; both are false right after
`NewCloser`, and both are true after a `Close` in any reached state. -/
theorem Closed_eq_fired (n : Int) (c : Closer) (ops : List Op)
    (hnew : NewCloser n = some c) :
    ((exec c ops).Closed = true ↔ (exec c ops).CloseNotify.closed = true) ∧
    (c.Closed = false ∧ c.CloseNotify.closed = false) ∧
    ((exec c ops).Close.Closed = true ∧ (exec c ops).Close.CloseNotify.closed = true) := by
  have hf := NewCloser_fresh n c hnew
  have hagree := exec_agree ops c (by rw [hf.2.2.1, hf.2.2.2])
  refine ⟨?_, ⟨hf.2.2.1, hf.2.2.2⟩, ⟨rfl, cancel_closed _⟩⟩
  show (exec c ops).closed = true ↔ (exec c ops).ctx.done.closed = true
  rw [hagree]

/-- Witness of C10: `NewCloser(2)`, then Done, Closed, Close, CloseNotify, AddRunning. -/
theorem Closed_eq_fired_witness :
    NewCloser 2 = some (Closer.mk ⟨2, by omega⟩ false ⟨⟨false⟩⟩) ∧
    ((exec (Closer.mk ⟨2, by omega⟩ false ⟨⟨false⟩⟩)
        [Op.Done, Op.Closed, Op.Close, Op.CloseNotify, Op.AddRunning]).Closed = true ↔
      (exec (Closer.mk ⟨2, by omega⟩ false ⟨⟨false⟩⟩)
        [Op.Done, Op.Closed, Op.Close, Op.CloseNotify, Op.AddRunning]).CloseNotify.closed
        = true) :=
  ⟨rfl,
    (Closed_eq_fired 2 (Closer.mk ⟨2, by omega⟩ false ⟨⟨false⟩⟩)
      [Op.Done, Op.Closed, Op.Close, Op.CloseNotify, Op.AddRunning] rfl).1⟩

end run
